import Mathlib

/-!
Verification of the title-index store and permission engine of the
golden-axe group-moderation bot (`src/ctx.rs`, `src/bot.rs`).

The sled database is modelled as an association list from string keys to
values; a value is either the UTF-8 title bytes stored under a forward
(chat) key or the 8-byte big-endian user id stored under a reverse
(title) key.  Decimal rendering of ids mirrors the Display impls used by
the `format!` calls building the keys.  All functions are computable so
that concrete stores can be evaluated by `decide`.
-/

set_option autoImplicit false

namespace GoldenAxe

/-- Decimal digit character, as produced by the Display rendering of
integers in the Rust source. -/
def digitChar (d : Nat) : Char :=
  match d with
  | 0 => '0' | 1 => '1' | 2 => '2' | 3 => '3' | 4 => '4'
  | 5 => '5' | 6 => '6' | 7 => '7' | 8 => '8' | _ => '9'

/-- Accumulator worker for decimal rendering.  The first argument is
structural fuel (any bound above the value works); this keeps the
definition kernel-reducible. -/
def natDecAux : Nat → Nat → List Char → List Char
  | 0, _, acc => acc
  | fuel + 1, n, acc =>
    if n < 10 then digitChar n :: acc
    else natDecAux fuel (n / 10) (digitChar (n % 10) :: acc)

/-- Decimal rendering of a `u64` value (most significant digit first), as
produced by Display in `format!("chat${}${}", ..)` and friends. -/
def natDecL (n : Nat) : List Char := natDecAux (n + 1) n []

/-- Decimal rendering of an `i64` value, sign included. -/
def intDecL (i : Int) : List Char :=
  if i < 0 then '-' :: natDecL i.natAbs else natDecL i.natAbs

/-- Numeric value of a digit string (the fold used by the parse model). -/
def listVal (l : List Char) : Nat :=
  l.foldl (fun a c => a * 10 + (c.toNat - 48)) 0

/-- A value stored in the sled database: either the UTF-8 title bytes kept
under a forward `chat$..` key, or the 8-byte big-endian user id kept under
a reverse `title$..` key.  The constructor tag replaces the byte-level
decoding (`String::from_utf8` / `u64::from_be_bytes`), which never fails
on the two key families the program writes. -/
inductive DbVal where
  | str : String → DbVal
  | uid : Nat → DbVal
deriving DecidableEq

/-- The sled `Db`, modelled as an association list without duplicate keys
(insertion removes the previous binding first). -/
abbrev Db := List (String × DbVal)

/-- `sled::Db::get`. -/
def dbGet : Db → String → Option DbVal
  | [], _ => none
  | kv :: rest, k => if kv.1 = k then some kv.2 else dbGet rest k

/-- `sled::Db::remove`. -/
def dbRemove : Db → String → Db
  | [], _ => []
  | kv :: rest, k => if kv.1 = k then dbRemove rest k else kv :: dbRemove rest k

/-- `sled::Db::insert`: replaces any previous binding of the key. -/
def dbInsert (db : Db) (k : String) (v : DbVal) : Db :=
  (k, v) :: dbRemove db k

/-- `sled::Db::scan_prefix`: all pairs whose key extends the given prefix
(sled compares raw key bytes; for the ASCII prefixes used by the program
this coincides with character-level prefixes). -/
def dbScan : Db → List Char → Db
  | [], _ => []
  | kv :: rest, p =>
    if p.isPrefixOf kv.1.data then kv :: dbScan rest p else dbScan rest p

/-- A title record, `TitleRecord` in `ctx.rs`. -/
structure TitleRecord where
  title : String
  chat_id : Int
  user_id : Nat
deriving DecidableEq

namespace TitleRecord

/-- `format!("chat${}${}", chat_id, user_id)` — the forward key. -/
def make_chat_key (chat_id : Int) (user_id : Nat) : String :=
  ⟨'c' :: 'h' :: 'a' :: 't' :: '$' :: (intDecL chat_id ++ '$' :: natDecL user_id)⟩

/-- `format!("title${}${}", chat_id, title)` — the reverse key. -/
def make_title_key (chat_id : Int) (title : String) : String :=
  ⟨'t' :: 'i' :: 't' :: 'l' :: 'e' :: '$' :: (intDecL chat_id ++ '$' :: title.data)⟩

/-- `TitleRecord::insert_into`: write the forward key then the reverse key. -/
def insert_into (r : TitleRecord) (db : Db) : Db :=
  dbInsert (dbInsert db (make_chat_key r.chat_id r.user_id) (DbVal.str r.title))
    (make_title_key r.chat_id r.title) (DbVal.uid r.user_id)

/-- `TitleRecord::remove_from`: delete the reverse key then the forward key. -/
def remove_from (r : TitleRecord) (db : Db) : Db :=
  dbRemove (dbRemove db (make_title_key r.chat_id r.title))
    (make_chat_key r.chat_id r.user_id)

/-- `TitleRecord::get_with_id`: forward lookup by `(chat_id, user_id)`. -/
def get_with_id (db : Db) (chat_id : Int) (user_id : Nat) : Option TitleRecord :=
  match dbGet db (make_chat_key chat_id user_id) with
  | some (DbVal.str t) => some ⟨t, chat_id, user_id⟩
  | _ => none

/-- `TitleRecord::get_with_title`: reverse lookup by `(chat_id, title)`. -/
def get_with_title (db : Db) (chat_id : Int) (title : String) : Option TitleRecord :=
  match dbGet db (make_title_key chat_id title) with
  | some (DbVal.uid u) => some ⟨title, chat_id, u⟩
  | _ => none

/-- `str::split` on the dollar separator, as used by `parse_chat_key`. -/
def splitOnDollar : List Char → List (List Char)
  | [] => [[]]
  | c :: rest =>
    if c = '$' then [] :: splitOnDollar rest
    else
      match splitOnDollar rest with
      | [] => [[c]]
      | h :: t => (c :: h) :: t

/-- `str::parse::<u64>` restricted to the digit strings occurring in keys
(no sign, no overflow — ids rendered by the program are canonical). -/
def parseNatDec (l : List Char) : Option Nat :=
  if !l.isEmpty && l.all Char.isDigit then some (listVal l) else none

/-- `str::parse::<i64>` restricted to the renderings occurring in keys. -/
def parseIntDec (l : List Char) : Option Int :=
  match l with
  | '-' :: rest => (parseNatDec rest).map (fun n => -(n : Int))
  | _ => (parseNatDec l).map (fun n => (n : Int))

/-- `TitleRecord::parse_chat_key`: split the key on the dollar separator,
expect the `chat` tag, parse the two ids, and take the value as the title
(chunks beyond the third are ignored, as with the Rust iterator). -/
def parse_chat_key (key : String) (v : DbVal) : Option TitleRecord :=
  match splitOnDollar key.data with
  | k0 :: k1 :: k2 :: _ =>
    if k0 = ['c', 'h', 'a', 't'] then
      match parseIntDec k1, parseNatDec k2, v with
      | some c, some u, DbVal.str t => some ⟨t, c, u⟩
      | _, _, _ => none
    else none
  | _ => none

/-- `TitleRecord::list_in_chat`: prefix scan over `format!("chat${}", chat)`
— note the missing trailing separator — and parse of every hit.  `none`
models the `Err` of the Rust `Result` when a hit fails to parse. -/
def list_in_chat (db : Db) (chat : Int) : Option (List TitleRecord) :=
  (dbScan db ('c' :: 'h' :: 'a' :: 't' :: '$' :: intDecL chat)).mapM
    (fun kv => parse_chat_key kv.1 kv.2)

end TitleRecord

/-- `Ctx::remove_title_with_id`: look up the record of the sender by
`(chat, user)` and remove both its keys; a miss is a no-op. -/
def remove_title_with_id (db : Db) (chat_id : Int) (user_id : Nat) : Db :=
  match TitleRecord.get_with_id db chat_id user_id with
  | none => db
  | some r => r.remove_from db

/-- `Ctx::remove_title_with_sig`: look up the record by `(chat, title)` and
remove both its keys; a miss is a no-op. -/
def remove_title_with_sig (db : Db) (chat_id : Int) (sig : String) : Db :=
  match TitleRecord.get_with_title db chat_id sig with
  | none => db
  | some r => r.remove_from db

instance : DecidableEq (Except String Unit) := fun a b =>
  match a, b with
  | Except.error e1, Except.error e2 =>
    match decEq e1 e2 with
    | isTrue h => isTrue (by rw [h])
    | isFalse h => isFalse (by intro hh; cases hh; exact h rfl)
  | Except.ok _, Except.ok _ => isTrue rfl
  | Except.error _, Except.ok _ => isFalse (by intro h; cases h)
  | Except.ok _, Except.error _ => isFalse (by intro h; cases h)

/-- Outcome of `Ctx::set_title`: the store afterwards, the number of
`set_chat_administrator_custom_title` platform calls issued, and the
returned `Result`. -/
structure SetTitleResult where
  db : Db
  api_calls : Nat
  result : Except String Unit
deriving DecidableEq

/-- `Ctx::set_title`: reject if the reverse key for `(chat, title)` holds
any record, else remove the prior record of the sender, issue the platform
custom-title call (`api_ok` tells whether it succeeds), and on success
save the new record. -/
def set_title (db : Db) (chat_id : Int) (user_id : Nat) (title : String)
    (api_ok : Bool) : SetTitleResult :=
  match TitleRecord.get_with_title db chat_id title with
  | some _ => ⟨db, 0, Except.error "Title already in use"⟩
  | none =>
    let db1 := remove_title_with_id db chat_id user_id
    if api_ok then
      ⟨(TitleRecord.mk title chat_id user_id).insert_into db1, 1, Except.ok ()⟩
    else
      ⟨db1, 1, Except.error "Failed to set title"⟩

/-- The closed set of role kinds of a chat member, `ChatMemberKind` of the
teloxide types used by `ctx.rs`.  `Administrator` carries the capability
flags read by the program, in the order
`(can_be_edited, can_promote_members, can_invite_users, is_anonymous)`. -/
inductive ChatMemberKind where
  | Owner (is_anonymous : Bool)
  | Administrator (can_be_edited can_promote_members can_invite_users is_anonymous : Bool)
  | Member
  | Restricted (can_invite_users : Bool)
  | Left
  | Banned
deriving DecidableEq

namespace ChatMemberKind

/-- Modelled from the teloxide dependency (`ChatMemberKind::can_promote_members`):
the owner implicitly holds every admin privilege, an administrator holds
the explicit flag, everyone else holds none. -/
def can_promote_members : ChatMemberKind → Bool
  | Owner _ => true
  | Administrator _ p _ _ => p
  | _ => false

/-- Modelled from the teloxide dependency (`ChatMemberKind::can_invite_users`):
true for the owner, the explicit flag for administrators and restricted
members, false otherwise. -/
def can_invite_users : ChatMemberKind → Bool
  | Owner _ => true
  | Administrator _ _ i _ => i
  | Restricted i => i
  | _ => false

/-- Modelled from the teloxide dependency (`ChatMemberKind::can_be_edited`). -/
def can_be_edited : ChatMemberKind → Bool
  | Administrator e _ _ _ => e
  | _ => false

/-- Modelled from the teloxide dependency (`ChatMemberKind::is_administrator`):
true exactly for the `Administrator` kind (not the owner). -/
def is_administrator : ChatMemberKind → Bool
  | Administrator _ _ _ _ => true
  | _ => false

end ChatMemberKind

/-- `chat_member_kind_to_str` of `ctx.rs`. -/
def chat_member_kind_to_str : ChatMemberKind → String
  | ChatMemberKind.Administrator _ _ _ _ => "admin"
  | ChatMemberKind.Member => "member"
  | ChatMemberKind.Owner _ => "owner"
  | ChatMemberKind.Restricted _ => "restricted"
  | ChatMemberKind.Left => "left"
  | ChatMemberKind.Banned => "banned"

/-- `Ctx::assert_editable` (`me` is the role of the bot, `sender` the role
of the acting principal). -/
def assert_editable (me sender : ChatMemberKind) : Except String Unit :=
  match me with
  | ChatMemberKind.Owner _ => Except.ok ()
  | ChatMemberKind.Administrator _ _ _ _ =>
    match sender with
    | ChatMemberKind.Administrator e _ _ _ =>
      if e then Except.ok ()
      else Except.error "Unable to change info (maybe promoted by others?)"
    | ChatMemberKind.Member => Except.ok ()
    | k =>
      Except.error ("Unable to edit because of status (" ++ chat_member_kind_to_str k ++ ")")
  | _ => Except.error "I'm not an admin, please promote me with promotion privilege first"

/-- `Ctx::assert_bot_promotable`. -/
def assert_bot_promotable (me : ChatMemberKind) : Except String Unit :=
  if me.can_promote_members && me.can_invite_users then Except.ok ()
  else Except.error "Unable to promote others because lack of privilege"

/-- Outcome of `Ctx::prep_edit`: how many `promote_chat_member` platform
calls were issued, whether the settle `sleep` was reached, and the
returned `Result`. -/
structure PrepEditResult where
  promote_calls : Nat
  waited : Bool
  result : Except String Unit
deriving DecidableEq

/-- `Ctx::prep_edit`: an administrator sender goes through
`assert_editable`; a plain member is promoted (after
`assert_bot_promotable`) with one platform call, acknowledged, and the
handler sleeps 1.5 s before proceeding; every other kind is rejected.
`promote_ok` and `reply_ok` tell whether the two network calls of the
member branch succeed. -/
def prep_edit (me sender : ChatMemberKind) (promote_ok reply_ok : Bool) :
    PrepEditResult :=
  match sender with
  | ChatMemberKind.Administrator _ _ _ _ => ⟨0, false, assert_editable me sender⟩
  | ChatMemberKind.Member =>
    match assert_bot_promotable me with
    | Except.error e => ⟨0, false, Except.error e⟩
    | Except.ok () =>
      if promote_ok then
        if reply_ok then ⟨1, true, Except.ok ()⟩
        else ⟨1, false, Except.error "reply failed"⟩
      else ⟨1, false, Except.error "Failed to promote"⟩
  | k =>
    ⟨0, false, Except.error
      ("Unable to edit you/them because of your(their) status(" ++
        chat_member_kind_to_str k ++ ")")⟩

/-- A chat member as returned by `get_chat_administrators`: the user id
together with the role kind. -/
structure ChatMemberEntry where
  uid : Nat
  kind : ChatMemberKind
deriving DecidableEq

/-- Outcome of `Ctx::nuke`: the store afterwards, the reported
`(all_count, demoted)` reply — `none` when the operation errors before
replying — and the returned `Result`. -/
structure NukeResult where
  db : Db
  reported : Option (Nat × Nat)
  result : Except String Unit
deriving DecidableEq

/-- `Ctx::nuke`: filter the administrator list to editable administrators,
remove the store record of each (synchronously, while building the
demotion futures), then run every demotion joined by `try_join_all` —
whose result is an error as soon as any single demotion fails — and only
on full success reply with `(all_admins.len() - 1, demoted)`.  `demote_ok`
tells which per-member `promote_chat_member` demotion calls succeed. -/
def nuke (db : Db) (chat_id : Int) (all_admins : List ChatMemberEntry)
    (demote_ok : Nat → Bool) : NukeResult :=
  let all_count := all_admins.length - 1
  let targets := all_admins.filter
    (fun m => m.kind.is_administrator && m.kind.can_be_edited)
  let db2 := targets.foldl (fun d m => remove_title_with_id d chat_id m.uid) db
  if targets.all (fun m => demote_ok m.uid) then
    ⟨db2, some (all_count, targets.length), Except.ok ()⟩
  else
    ⟨db2, none, Except.error "Failed to load remove all admins"⟩

/-- One observable step of the handling of a `/title` command, used to
state in which order checks and network calls happen. -/
inductive HandleEvent where
  | get_chat_member
  | reject_no_sender
  | reject_not_in_group
  | reject_empty_title
  | proceed
deriving DecidableEq

/-- The event trace of `handle_command` for `Command::Title` (`bot.rs`)
driving `Ctx::handle_with` (`ctx.rs`): the sender check of `Ctx::new`
happens first without network cost; then `upgrade` always issues the two
`get_chat_member` role fetches; only afterwards do `assert_in_group`, the
anonymous-sender resolution (one more fetch when the sender uses the
anonymous sentinel and a record is found), and the empty-title check run.
The trace stops where `prep_edit` takes over. -/
def handle_title_events (has_sender in_group anon_sentinel : Bool)
    (title : String) : List HandleEvent :=
  if !has_sender then [HandleEvent.reject_no_sender]
  else
    HandleEvent.get_chat_member :: HandleEvent.get_chat_member ::
      (if !in_group then [HandleEvent.reject_not_in_group]
       else
         (if anon_sentinel then [HandleEvent.get_chat_member] else []) ++
           (if title.isEmpty then [HandleEvent.reject_empty_title]
            else [HandleEvent.proceed]))

/-- The two-key-family consistency invariant of the store: every forward
key holds title bytes, every reverse key holds a user id, and the two
families mirror each other exactly. -/
structure Coherent (db : Db) : Prop where
  chat_typed : ∀ c u v, dbGet db (TitleRecord.make_chat_key c u) = some v →
    ∃ t, v = DbVal.str t
  title_typed : ∀ c t v, dbGet db (TitleRecord.make_title_key c t) = some v →
    ∃ u, v = DbVal.uid u
  fwd_rev : ∀ c u t,
    dbGet db (TitleRecord.make_chat_key c u) = some (DbVal.str t) →
    dbGet db (TitleRecord.make_title_key c t) = some (DbVal.uid u)
  rev_fwd : ∀ c t u,
    dbGet db (TitleRecord.make_title_key c t) = some (DbVal.uid u) →
    dbGet db (TitleRecord.make_chat_key c u) = some (DbVal.str t)

/-- A TitleStore mutation, as issued by the command handlers: `set_title`
(`api_ok` telling whether the platform call succeeds, covering the error
paths as well), the two explicit removal commands, and the per-member
removal performed by `nuke`. -/
inductive StoreOp where
  | set_op (chat_id : Int) (user_id : Nat) (title : String) (api_ok : Bool)
  | remove_id_op (chat_id : Int) (user_id : Nat)
  | remove_sig_op (chat_id : Int) (sig : String)
  | nuke_remove_op (chat_id : Int) (user_id : Nat)

/-- Effect of one store operation on the database. -/
def applyStoreOp (db : Db) : StoreOp → Db
  | StoreOp.set_op c u t ok => (set_title db c u t ok).db
  | StoreOp.remove_id_op c u => remove_title_with_id db c u
  | StoreOp.remove_sig_op c s => remove_title_with_sig db c s
  | StoreOp.nuke_remove_op c u => remove_title_with_id db c u

/-- The store reached from the empty database by a sequence of operations. -/
def runOps (ops : List StoreOp) : Db := ops.foldl applyStoreOp []

/-- Modelled from the teloxide dependency (`ChatMemberKind::is_owner`). -/
def ChatMemberKind.is_owner : ChatMemberKind → Bool
  | ChatMemberKind.Owner _ => true
  | _ => false

/-- Store fixture for the nuke scenario: three members of chat 9 hold
titles. -/
def c3_db : Db :=
  (TitleRecord.mk "A" 9 1).insert_into
    ((TitleRecord.mk "B" 9 2).insert_into
      ((TitleRecord.mk "C" 9 3).insert_into []))

/-- Administrator fixture for the nuke scenario: three editable
administrators and one that cannot be edited. -/
def c3_admins : List ChatMemberEntry :=
  [ChatMemberEntry.mk 1 (ChatMemberKind.Administrator true false false false),
   ChatMemberEntry.mk 2 (ChatMemberKind.Administrator true false false false),
   ChatMemberEntry.mk 3 (ChatMemberKind.Administrator true false false false),
   ChatMemberEntry.mk 4 (ChatMemberKind.Administrator false false false false)]

theorem natDecAux_mem {fuel n : Nat} {acc : List Char} {c : Char}
    (h : c ∈ natDecAux fuel n acc) :
    (∃ d, d < 10 ∧ c = digitChar d) ∨ c ∈ acc := by
  induction fuel generalizing n acc with
  | zero => exact Or.inr h
  | succ fuel ih =>
    unfold natDecAux at h
    by_cases hn : n < 10
    · simp only [if_pos hn, List.mem_cons] at h
      rcases h with h | h
      · exact Or.inl ⟨n, hn, h⟩
      · exact Or.inr h
    · simp only [if_neg hn] at h
      rcases ih h with h | h
      · exact Or.inl h
      · rcases List.mem_cons.mp h with rfl | h
        · exact Or.inl ⟨n % 10, Nat.mod_lt _ (by omega), rfl⟩
        · exact Or.inr h

theorem digitChar_ne_dollar {d : Nat} (h : d < 10) : digitChar d ≠ '$' := by
  interval_cases d <;> decide

theorem digitChar_ne_dash {d : Nat} (h : d < 10) : digitChar d ≠ '-' := by
  interval_cases d <;> decide

theorem natDecL_no_dollar {n : Nat} {c : Char} (h : c ∈ natDecL n) : c ≠ '$' := by
  rcases natDecAux_mem h with ⟨d, hd, rfl⟩ | h
  · exact digitChar_ne_dollar hd
  · simp at h

theorem natDecL_no_dash {n : Nat} {c : Char} (h : c ∈ natDecL n) : c ≠ '-' := by
  rcases natDecAux_mem h with ⟨d, hd, rfl⟩ | h
  · exact digitChar_ne_dash hd
  · simp at h

theorem intDecL_no_dollar {i : Int} {c : Char} (h : c ∈ intDecL i) : c ≠ '$' := by
  unfold intDecL at h
  by_cases hi : i < 0
  · simp only [if_pos hi, List.mem_cons] at h
    rcases h with rfl | h
    · decide
    · exact natDecL_no_dollar h
  · simp only [if_neg hi] at h
    exact natDecL_no_dollar h

theorem natDecAux_eq_nil {fuel n : Nat} {acc : List Char}
    (h : natDecAux fuel n acc = []) : acc = [] := by
  induction fuel generalizing n acc with
  | zero => exact h
  | succ fuel ih =>
    unfold natDecAux at h
    by_cases hn : n < 10
    · simp [if_pos hn] at h
    · exact (List.cons_ne_nil _ _ (ih (by simpa [if_neg hn] using h))).elim

theorem natDecL_ne_nil (n : Nat) : natDecL n ≠ [] := by
  intro h
  unfold natDecL natDecAux at h
  by_cases hn : n < 10
  · simp [if_pos hn] at h
  · simp only [if_neg hn] at h
    exact List.cons_ne_nil _ _ (natDecAux_eq_nil h)

/-- Unfolding lemma: the accumulator can be pulled out. -/
theorem natDecAux_append {fuel n : Nat} (hfn : n < fuel) (acc : List Char) :
    natDecAux fuel n acc = natDecAux fuel n [] ++ acc := by
  induction fuel generalizing n acc with
  | zero => omega
  | succ fuel ih =>
    by_cases hn : n < 10
    · simp [natDecAux, if_pos hn]
    · have hlt : n / 10 < fuel := by
        have h1 : n / 10 < n := Nat.div_lt_self (by omega) (by omega)
        omega
      rw [natDecAux, if_neg hn, natDecAux, if_neg hn,
        ih hlt (digitChar (n % 10) :: acc), ih hlt [digitChar (n % 10)]]
      simp

theorem digitChar_toNat {d : Nat} (h : d < 10) : (digitChar d).toNat = 48 + d := by
  interval_cases d <;> decide

theorem foldl_natDecAux {fuel n : Nat} (hfn : n < fuel) (a : Nat) :
    (natDecAux fuel n []).foldl (fun x c => x * 10 + (c.toNat - 48)) a =
      a * 10 ^ (natDecAux fuel n []).length + n := by
  induction fuel generalizing n a with
  | zero => omega
  | succ fuel ih =>
    by_cases hn : n < 10
    · simp [natDecAux, if_pos hn, digitChar_toNat hn]
    · have hlt : n / 10 < fuel := by
        have h1 : n / 10 < n := Nat.div_lt_self (by omega) (by omega)
        omega
      rw [natDecAux, if_neg hn, natDecAux_append hlt]
      rw [List.foldl_append, List.length_append]
      rw [ih hlt a]
      simp only [List.foldl_cons, List.foldl_nil, List.length_cons,
        List.length_nil]
      rw [digitChar_toNat (Nat.mod_lt _ (by omega))]
      have hmod := Nat.div_add_mod n 10
      rw [pow_succ, ← mul_assoc]
      generalize a * 10 ^ (natDecAux fuel (n / 10) []).length = X
      omega

theorem listVal_natDecL (n : Nat) : listVal (natDecL n) = n := by
  have h := @foldl_natDecAux (n + 1) n (by omega) 0
  simpa [listVal, natDecL] using h

theorem natDecL_injective {m n : Nat} (h : natDecL m = natDecL n) : m = n := by
  have := listVal_natDecL m
  rw [h, listVal_natDecL] at this
  omega

theorem intDecL_injective {i j : Int} (h : intDecL i = intDecL j) : i = j := by
  unfold intDecL at h
  by_cases hi : i < 0 <;> by_cases hj : j < 0
  · simp only [if_pos hi, if_pos hj, List.cons.injEq] at h
    have := natDecL_injective h.2
    omega
  · simp only [if_pos hi, if_neg hj] at h
    obtain ⟨c, l, hcl⟩ : ∃ c l, natDecL j.natAbs = c :: l := by
      cases hn : natDecL j.natAbs with
      | nil => exact (natDecL_ne_nil _ hn).elim
      | cons c l => exact ⟨c, l, rfl⟩
    rw [hcl] at h
    have hc : c = '-' := (List.cons.injEq _ _ _ _ ▸ h).1.symm
    have : c ∈ natDecL j.natAbs := by rw [hcl]; exact List.mem_cons_self _ _
    exact (natDecL_no_dash this hc).elim
  · simp only [if_neg hi, if_pos hj] at h
    obtain ⟨c, l, hcl⟩ : ∃ c l, natDecL i.natAbs = c :: l := by
      cases hn : natDecL i.natAbs with
      | nil => exact (natDecL_ne_nil _ hn).elim
      | cons c l => exact ⟨c, l, rfl⟩
    rw [hcl] at h
    have hc : c = '-' := (List.cons.injEq _ _ _ _ ▸ h).1
    have : c ∈ natDecL i.natAbs := by rw [hcl]; exact List.mem_cons_self _ _
    exact (natDecL_no_dash this hc).elim
  · simp only [if_neg hi, if_neg hj] at h
    have := natDecL_injective h
    omega

/-- Splitting a dollar-terminated block is unambiguous when the head block
is dollar-free. -/
theorem append_dollar_inj {a b a2 b2 : List Char}
    (ha : ∀ c ∈ a, c ≠ '$') (ha2 : ∀ c ∈ a2, c ≠ '$')
    (h : a ++ '$' :: b = a2 ++ '$' :: b2) : a = a2 ∧ b = b2 := by
  induction a generalizing a2 with
  | nil =>
    cases a2 with
    | nil => simpa using h
    | cons c2 t2 =>
      simp only [List.nil_append, List.cons_append, List.cons.injEq] at h
      exact ((ha2 c2 (List.mem_cons_self _ _)) h.1.symm).elim
  | cons c t ih =>
    cases a2 with
    | nil =>
      simp only [List.cons_append, List.nil_append, List.cons.injEq] at h
      exact ((ha c (List.mem_cons_self _ _)) h.1).elim
    | cons c2 t2 =>
      simp only [List.cons_append, List.cons.injEq] at h
      obtain ⟨rfl, h2⟩ := h
      have := ih (fun x hx => ha x (List.mem_cons_of_mem _ hx))
        (fun x hx => ha2 x (List.mem_cons_of_mem _ hx)) h2
      exact ⟨by rw [this.1], this.2⟩

theorem dbGet_remove (db : Db) (k k2 : String) :
    dbGet (dbRemove db k) k2 = if k2 = k then none else dbGet db k2 := by
  induction db with
  | nil => simp [dbRemove, dbGet]
  | cons kv rest ih =>
    by_cases h1 : kv.1 = k
    · rw [dbRemove, if_pos h1, ih]
      by_cases h2 : k2 = k
      · simp [h2]
      · rw [if_neg h2, if_neg h2, dbGet,
          if_neg (fun h => h2 (h1 ▸ h).symm)]
    · rw [dbRemove, if_neg h1, dbGet]
      by_cases h3 : kv.1 = k2
      · subst h3
        rw [if_pos rfl, if_neg (fun h => h1 h), dbGet, if_pos rfl]
      · rw [if_neg h3, ih, dbGet, if_neg h3]

theorem dbGet_insert (db : Db) (k k2 : String) (v : DbVal) :
    dbGet (dbInsert db k v) k2 = if k2 = k then some v else dbGet db k2 := by
  rw [dbInsert, dbGet]
  by_cases h : k2 = k
  · simp [h]
  · rw [if_neg (fun hh => h hh.symm), if_neg h, dbGet_remove, if_neg h]

theorem TitleRecord.make_chat_key_inj {c c2 : Int} {u u2 : Nat}
    (h : make_chat_key c u = make_chat_key c2 u2) : c = c2 ∧ u = u2 := by
  have hd : intDecL c ++ '$' :: natDecL u = intDecL c2 ++ '$' :: natDecL u2 := by
    have := congrArg String.data h
    simpa [make_chat_key] using this
  have := append_dollar_inj (fun x hx => intDecL_no_dollar hx)
    (fun x hx => intDecL_no_dollar hx) hd
  exact ⟨intDecL_injective this.1, natDecL_injective this.2⟩

theorem TitleRecord.make_title_key_inj {c c2 : Int} {t t2 : String}
    (h : make_title_key c t = make_title_key c2 t2) : c = c2 ∧ t = t2 := by
  have hd : intDecL c ++ '$' :: t.data = intDecL c2 ++ '$' :: t2.data := by
    have := congrArg String.data h
    simpa [make_title_key] using this
  have := append_dollar_inj (fun x hx => intDecL_no_dollar hx)
    (fun x hx => intDecL_no_dollar hx) hd
  refine ⟨intDecL_injective this.1, ?_⟩
  have h2 : t.data = t2.data := this.2
  cases t; cases t2
  exact congrArg String.mk (by simpa using h2)

theorem TitleRecord.chat_key_ne_title_key (c c2 : Int) (u : Nat) (t : String) :
    make_chat_key c u ≠ make_title_key c2 t := by
  intro h
  have := congrArg String.data h
  simp [make_chat_key, make_title_key] at this

theorem dbGet_remove_from (r : TitleRecord) (db : Db) (k : String) :
    dbGet (r.remove_from db) k =
      if k = TitleRecord.make_chat_key r.chat_id r.user_id then none
      else if k = TitleRecord.make_title_key r.chat_id r.title then none
      else dbGet db k := by
  unfold TitleRecord.remove_from
  rw [dbGet_remove, dbGet_remove]

theorem dbGet_insert_into (r : TitleRecord) (db : Db) (k : String) :
    dbGet (r.insert_into db) k =
      if k = TitleRecord.make_title_key r.chat_id r.title then
        some (DbVal.uid r.user_id)
      else if k = TitleRecord.make_chat_key r.chat_id r.user_id then
        some (DbVal.str r.title)
      else dbGet db k := by
  unfold TitleRecord.insert_into
  rw [dbGet_insert, dbGet_insert]

theorem get_with_id_some {db : Db} {c : Int} {u : Nat} {r : TitleRecord}
    (h : TitleRecord.get_with_id db c u = some r) :
    dbGet db (TitleRecord.make_chat_key c u) = some (DbVal.str r.title) ∧
      r.chat_id = c ∧ r.user_id = u := by
  unfold TitleRecord.get_with_id at h
  cases hv : dbGet db (TitleRecord.make_chat_key c u) with
  | none => rw [hv] at h; cases h
  | some v =>
    cases v with
    | str t =>
      rw [hv] at h
      simp only [Option.some.injEq] at h
      subst h
      exact ⟨by simp only [], rfl, rfl⟩
    | uid n => rw [hv] at h; cases h

theorem get_with_title_some {db : Db} {c : Int} {t : String} {r : TitleRecord}
    (h : TitleRecord.get_with_title db c t = some r) :
    dbGet db (TitleRecord.make_title_key c t) = some (DbVal.uid r.user_id) ∧
      r.chat_id = c ∧ r.title = t := by
  unfold TitleRecord.get_with_title at h
  cases hv : dbGet db (TitleRecord.make_title_key c t) with
  | none => rw [hv] at h; cases h
  | some v =>
    cases v with
    | str s => rw [hv] at h; cases h
    | uid n =>
      rw [hv] at h
      simp only [Option.some.injEq] at h
      subst h
      exact ⟨by simp only [], rfl, rfl⟩

theorem coherent_nil : Coherent [] := by
  constructor <;> intros <;> simp [dbGet] at *

theorem Coherent.chat_lookup_none {db : Db} {c : Int} {u : Nat} (h : Coherent db)
    (hn : TitleRecord.get_with_id db c u = none) :
    dbGet db (TitleRecord.make_chat_key c u) = none := by
  cases hv : dbGet db (TitleRecord.make_chat_key c u) with
  | none => rfl
  | some v =>
    obtain ⟨t, rfl⟩ := h.chat_typed c u v hv
    unfold TitleRecord.get_with_id at hn
    rw [hv] at hn
    simp at hn

theorem Coherent.title_lookup_none {db : Db} {c : Int} {t : String} (h : Coherent db)
    (hn : TitleRecord.get_with_title db c t = none) :
    dbGet db (TitleRecord.make_title_key c t) = none := by
  cases hv : dbGet db (TitleRecord.make_title_key c t) with
  | none => rfl
  | some v =>
    obtain ⟨u, rfl⟩ := h.title_typed c t v hv
    unfold TitleRecord.get_with_title at hn
    rw [hv] at hn
    simp at hn

/-- Removing a record that is actually present (by its forward key) keeps
the store coherent. -/
theorem Coherent.remove_record {db : Db} {r : TitleRecord} (h : Coherent db)
    (hr : dbGet db (TitleRecord.make_chat_key r.chat_id r.user_id) =
      some (DbVal.str r.title)) : Coherent (r.remove_from db) := by
  constructor
  · intro c u v hv
    rw [dbGet_remove_from] at hv
    split_ifs at hv
    exact h.chat_typed c u v hv
  · intro c t v hv
    rw [dbGet_remove_from] at hv
    split_ifs at hv
    exact h.title_typed c t v hv
  · intro c u t hv
    rw [dbGet_remove_from] at hv
    split_ifs at hv with h1 h2
    have hrev := h.fwd_rev c u t hv
    have hne1 : TitleRecord.make_title_key c t ≠
        TitleRecord.make_chat_key r.chat_id r.user_id :=
      fun he => TitleRecord.chat_key_ne_title_key _ _ _ _ he.symm
    have hne2 : TitleRecord.make_title_key c t ≠
        TitleRecord.make_title_key r.chat_id r.title := by
      intro he
      obtain ⟨hc, ht⟩ := TitleRecord.make_title_key_inj he
      subst hc
      subst ht
      have h1u := h.fwd_rev _ _ _ hv
      have h2u := h.fwd_rev _ _ _ hr
      rw [h1u] at h2u
      have huu : u = r.user_id := by simpa using h2u
      exact h1 (by rw [huu])
    rw [dbGet_remove_from, if_neg hne1, if_neg hne2]
    exact hrev
  · intro c t u hv
    rw [dbGet_remove_from] at hv
    split_ifs at hv with h1 h2
    have hfwd := h.rev_fwd c t u hv
    have hne2 : TitleRecord.make_chat_key c u ≠
        TitleRecord.make_title_key r.chat_id r.title :=
      TitleRecord.chat_key_ne_title_key _ _ _ _
    have hne1 : TitleRecord.make_chat_key c u ≠
        TitleRecord.make_chat_key r.chat_id r.user_id := by
      intro he
      obtain ⟨hc, hu⟩ := TitleRecord.make_chat_key_inj he
      subst hc
      subst hu
      have heq := hfwd
      rw [hr] at heq
      have htt : r.title = t := by simpa using heq
      exact h2 (by rw [htt])
    rw [dbGet_remove_from, if_neg hne1, if_neg hne2]
    exact hfwd

theorem Coherent.remove_title_with_id_pres {db : Db} {c : Int} {u : Nat}
    (h : Coherent db) : Coherent (remove_title_with_id db c u) := by
  unfold remove_title_with_id
  cases hg : TitleRecord.get_with_id db c u with
  | none => exact h
  | some r =>
    obtain ⟨hv, hc, hu⟩ := get_with_id_some hg
    exact h.remove_record (by rw [hc, hu]; exact hv)

theorem Coherent.remove_title_with_sig_pres {db : Db} {c : Int} {s : String}
    (h : Coherent db) : Coherent (remove_title_with_sig db c s) := by
  unfold remove_title_with_sig
  cases hg : TitleRecord.get_with_title db c s with
  | none => exact h
  | some r =>
    obtain ⟨hv, hc, ht⟩ := get_with_title_some hg
    exact h.remove_record (h.rev_fwd _ _ _ (by rw [hc, ht]; exact hv))

/-- `dbGet_insert_into` specialised to a literal record, with the
projections reduced. -/
theorem dbGet_insert_mk (t : String) (c : Int) (u : Nat) (db : Db) (k : String) :
    dbGet ((TitleRecord.mk t c u).insert_into db) k =
      if k = TitleRecord.make_title_key c t then some (DbVal.uid u)
      else if k = TitleRecord.make_chat_key c u then some (DbVal.str t)
      else dbGet db k :=
  dbGet_insert_into _ _ _

/-- Branch lemma: `set_title` rejects as soon as the reverse key holds any
record. -/
theorem set_title_in_use {db : Db} {c : Int} {u : Nat} {t : String}
    {api_ok : Bool} {r : TitleRecord}
    (h : TitleRecord.get_with_title db c t = some r) :
    set_title db c u t api_ok = ⟨db, 0, Except.error "Title already in use"⟩ := by
  unfold set_title
  rw [h]

/-- Branch lemma: the success path of `set_title`. -/
theorem set_title_ok {db : Db} {c : Int} {u : Nat} {t : String}
    (h : TitleRecord.get_with_title db c t = none) :
    set_title db c u t true =
      ⟨(TitleRecord.mk t c u).insert_into (remove_title_with_id db c u), 1,
        Except.ok ()⟩ := by
  unfold set_title
  rw [h]
  rfl

/-- Branch lemma: the path of `set_title` where the platform custom-title
call fails. -/
theorem set_title_api_fail {db : Db} {c : Int} {u : Nat} {t : String}
    (h : TitleRecord.get_with_title db c t = none) :
    set_title db c u t false =
      ⟨remove_title_with_id db c u, 1, Except.error "Failed to set title"⟩ := by
  unfold set_title
  rw [h]
  rfl

/-- Inserting a fresh record (both keys currently absent) keeps the store
coherent. -/
theorem Coherent.insert_fresh {db : Db} {c : Int} {u : Nat} {t : String}
    (h : Coherent db)
    (hT : dbGet db (TitleRecord.make_title_key c t) = none)
    (hC : dbGet db (TitleRecord.make_chat_key c u) = none) :
    Coherent ((TitleRecord.mk t c u).insert_into db) := by
  constructor
  · intro c2 u2 v hv
    rw [dbGet_insert_mk] at hv
    split_ifs at hv with h1 h2
    · exact (TitleRecord.chat_key_ne_title_key _ _ _ _ h1).elim
    · exact ⟨t, by simpa using hv.symm⟩
    · exact h.chat_typed c2 u2 v hv
  · intro c2 t2 v hv
    rw [dbGet_insert_mk] at hv
    split_ifs at hv with h1 h2
    · exact ⟨u, by simpa using hv.symm⟩
    · exact (TitleRecord.chat_key_ne_title_key _ _ _ _ h2.symm).elim
    · exact h.title_typed c2 t2 v hv
  · intro c2 u2 t2 hv
    rw [dbGet_insert_mk] at hv
    split_ifs at hv with h1 h2
    · exact (TitleRecord.chat_key_ne_title_key _ _ _ _ h1).elim
    · obtain ⟨hc2, hu2⟩ := TitleRecord.make_chat_key_inj h2
      have ht2 : t = t2 := by simpa using hv
      rw [hc2, hu2, ← ht2, dbGet_insert_mk, if_pos rfl]
    · have hrev := h.fwd_rev c2 u2 t2 hv
      have hne1 : TitleRecord.make_title_key c2 t2 ≠
          TitleRecord.make_title_key c t := by
        intro he
        obtain ⟨hc2, ht2⟩ := TitleRecord.make_title_key_inj he
        rw [hc2, ht2] at hrev
        rw [hrev] at hT
        cases hT
      have hne2 : TitleRecord.make_title_key c2 t2 ≠
          TitleRecord.make_chat_key c u :=
        fun he => TitleRecord.chat_key_ne_title_key _ _ _ _ he.symm
      rw [dbGet_insert_mk, if_neg hne1, if_neg hne2]
      exact hrev
  · intro c2 t2 u2 hv
    rw [dbGet_insert_mk] at hv
    split_ifs at hv with h1 h2
    · obtain ⟨hc2, ht2⟩ := TitleRecord.make_title_key_inj h1
      have hu2 : u = u2 := by simpa using hv
      rw [hc2, ht2, ← hu2, dbGet_insert_mk,
        if_neg (TitleRecord.chat_key_ne_title_key c c u t), if_pos rfl]
    · exact (TitleRecord.chat_key_ne_title_key _ _ _ _ h2.symm).elim
    · have hfwd := h.rev_fwd c2 t2 u2 hv
      have hne1 : TitleRecord.make_chat_key c2 u2 ≠
          TitleRecord.make_title_key c t :=
        TitleRecord.chat_key_ne_title_key _ _ _ _
      have hne2 : TitleRecord.make_chat_key c2 u2 ≠
          TitleRecord.make_chat_key c u := by
        intro he
        obtain ⟨hc2, hu2⟩ := TitleRecord.make_chat_key_inj he
        rw [hc2, hu2] at hfwd
        rw [hfwd] at hC
        cases hC
      rw [dbGet_insert_mk, if_neg hne1, if_neg hne2]
      exact hfwd

theorem get_chat_key_none_after_remove_self (db : Db) (c : Int) (u : Nat)
    (h : Coherent db) :
    dbGet (remove_title_with_id db c u) (TitleRecord.make_chat_key c u) = none := by
  unfold remove_title_with_id
  cases hg2 : TitleRecord.get_with_id db c u with
  | none => exact h.chat_lookup_none hg2
  | some r =>
    obtain ⟨hv, hc, hu⟩ := get_with_id_some hg2
    rw [dbGet_remove_from, if_pos (by rw [hc, hu])]

theorem Coherent.set_title_pres {db : Db} {c : Int} {u : Nat} {t : String}
    {api_ok : Bool} (h : Coherent db) : Coherent (set_title db c u t api_ok).db := by
  cases hg : TitleRecord.get_with_title db c t with
  | some r => rw [set_title_in_use hg]; exact h
  | none =>
    have h1 : Coherent (remove_title_with_id db c u) :=
      h.remove_title_with_id_pres
    cases api_ok with
    | false => rw [set_title_api_fail hg]; exact h1
    | true =>
      rw [set_title_ok hg]
      have hT : dbGet (remove_title_with_id db c u)
          (TitleRecord.make_title_key c t) = none := by
        have hT0 := h.title_lookup_none hg
        unfold remove_title_with_id
        cases hg2 : TitleRecord.get_with_id db c u with
        | none => exact hT0
        | some r =>
          rw [dbGet_remove_from]
          split_ifs with ha hb
          · rfl
          · rfl
          · exact hT0
      exact h1.insert_fresh hT (get_chat_key_none_after_remove_self db c u h)

theorem Coherent.applyStoreOp_pres {db : Db} (h : Coherent db) (op : StoreOp) :
    Coherent (applyStoreOp db op) := by
  cases op with
  | set_op c u t ok => exact h.set_title_pres
  | remove_id_op c u => exact h.remove_title_with_id_pres
  | remove_sig_op c s => exact h.remove_title_with_sig_pres
  | nuke_remove_op c u => exact h.remove_title_with_id_pres

theorem coherent_runOps (ops : List StoreOp) : Coherent (runOps ops) := by
  suffices h : ∀ db : Db, Coherent db → Coherent (ops.foldl applyStoreOp db) from
    h [] coherent_nil
  induction ops with
  | nil => intro db h; exact h
  | cons op rest ih =>
    intro db h
    exact ih _ (h.applyStoreOp_pres op)

/-- Claim C1: the listing is supposed to return exactly the records of the
requested chat; because the scan prefix of `list_in_chat` lacks the
trailing separator, listing chat 1 in a store holding records for chats 1
and 12 also returns the record of chat 12 — the code violates the claim at
this input. -/
theorem c1_list_in_chat_crosses_chats :
    TitleRecord.list_in_chat
      ((TitleRecord.mk "B" 12 7).insert_into
        ((TitleRecord.mk "A" 1 5).insert_into [])) 1 =
      some [TitleRecord.mk "B" 12 7, TitleRecord.mk "A" 1 5] := by
  decide

/-- Claim C2, counterexample: when `(chat, title)` already maps to the
requesting user themself, the claim says `set_title` succeeds, but the
code rejects with the in-use conflict. -/
theorem c2_self_reclaim_rejected :
    TitleRecord.get_with_title ((TitleRecord.mk "Chief" 1 5).insert_into [])
        1 "Chief" = some (TitleRecord.mk "Chief" 1 5) ∧
    (set_title ((TitleRecord.mk "Chief" 1 5).insert_into []) 1 5 "Chief"
        true).result = Except.error "Title already in use" := by
  decide

/-- Claim C2, amended: `set_title` fails with the in-use conflict exactly
when `(chat, title)` already maps to any user (the requester included);
when the reverse key is free and the platform call succeeds, it removes
the prior record of the requester and writes both keys. -/
theorem c2_insert_conflict_iff (db : Db) (c : Int) (u : Nat) (t : String)
    (api_ok : Bool) :
    ((set_title db c u t api_ok).result = Except.error "Title already in use" ↔
      (TitleRecord.get_with_title db c t).isSome = true) ∧
    (TitleRecord.get_with_title db c t = none → api_ok = true →
      (set_title db c u t api_ok).result = Except.ok () ∧
      (set_title db c u t api_ok).db =
        (TitleRecord.mk t c u).insert_into (remove_title_with_id db c u)) := by
  constructor
  · cases hg : TitleRecord.get_with_title db c t with
    | some r => rw [set_title_in_use hg]; simp
    | none =>
      constructor
      · intro hres
        cases api_ok with
        | false => rw [set_title_api_fail hg] at hres; simp at hres
        | true => rw [set_title_ok hg] at hres; simp at hres
      · intro hsome
        simp at hsome
  · intro hnone hapi
    subst hapi
    rw [set_title_ok hnone]
    exact ⟨rfl, rfl⟩

/-- Claim C2, witness: on a free title the amended theorem yields success. -/
theorem c2_witness :
    TitleRecord.get_with_title ([] : Db) 1 "T" = none ∧
    (set_title ([] : Db) 1 5 "T" true).result = Except.ok () :=
  ⟨by decide, ((c2_insert_conflict_iff [] 1 5 "T" true).2 (by decide) rfl).1⟩

/-- Claim C3, counterexample: with three editable administrators and one
non-editable one, a single failing demotion makes `nuke` return an error
and report no count at all (the `try_join_all` join aborts), while the
already-committed record removals stay in place — so the claim that the
operation still reports attempted versus succeeded counts fails. -/
theorem c3_partial_failure_reports_nothing :
    (nuke c3_db 9 c3_admins (fun uid => uid != 2)).reported = none ∧
    (nuke c3_db 9 c3_admins (fun uid => uid != 2)).result =
      Except.error "Failed to load remove all admins" ∧
    TitleRecord.get_with_id (nuke c3_db 9 c3_admins (fun uid => uid != 2)).db 9 1 =
      none ∧
    TitleRecord.get_with_id (nuke c3_db 9 c3_admins (fun uid => uid != 2)).db 9 2 =
      none ∧
    TitleRecord.get_with_id (nuke c3_db 9 c3_admins (fun uid => uid != 2)).db 9 3 =
      none := by
  decide

/-- Claim C3, amended: `nuke` commits the store removals for every
editable administrator before any demotion outcome matters and never
rolls them back; it reports `(all admins - 1, demotions issued)` exactly
when every demotion succeeds, and reports nothing (returning an error)
as soon as any demotion fails. -/
theorem c3_nuke_reporting (db : Db) (c : Int) (admins : List ChatMemberEntry)
    (ok : Nat → Bool) :
    (nuke db c admins ok).db =
      (admins.filter (fun m => m.kind.is_administrator && m.kind.can_be_edited)).foldl
        (fun d m => remove_title_with_id d c m.uid) db ∧
    ((nuke db c admins ok).reported =
        some (admins.length - 1,
          (admins.filter
            (fun m => m.kind.is_administrator && m.kind.can_be_edited)).length) ↔
      (admins.filter (fun m => m.kind.is_administrator && m.kind.can_be_edited)).all
        (fun m => ok m.uid) = true) ∧
    ((nuke db c admins ok).reported = none ↔
      (admins.filter (fun m => m.kind.is_administrator && m.kind.can_be_edited)).all
        (fun m => ok m.uid) = false) := by
  cases hall : (admins.filter
      (fun m => m.kind.is_administrator && m.kind.can_be_edited)).all
      (fun m => ok m.uid) with
  | true => simp [nuke, hall]
  | false => simp [nuke, hall]

/-- Claim C4, counterexample: for a command sent outside a group the code
still issues the two `get_chat_member` role fetches first and rejects only
afterwards, refuting the claim that this input error is rejected before
any network call. -/
theorem c4_group_check_after_fetch :
    handle_title_events true false false "Chief" =
      [HandleEvent.get_chat_member, HandleEvent.get_chat_member,
        HandleEvent.reject_not_in_group] := by
  decide

/-- Claim C4, amended: only the no-sender input error is rejected before
any network call; the outside-group and empty-title errors are detected
after the two role-snapshot fetches (though before any further network
activity), in that order. -/
theorem c4_input_error_order :
    (∀ (g a : Bool) (t : String),
      handle_title_events false g a t = [HandleEvent.reject_no_sender]) ∧
    (∀ (a : Bool) (t : String),
      handle_title_events true false a t =
        [HandleEvent.get_chat_member, HandleEvent.get_chat_member,
          HandleEvent.reject_not_in_group]) ∧
    (∀ t : String,
      handle_title_events true true false t =
        HandleEvent.get_chat_member :: HandleEvent.get_chat_member ::
          (if t.isEmpty then [HandleEvent.reject_empty_title]
           else [HandleEvent.proceed])) :=
  ⟨fun _ _ _ => rfl, fun _ _ => rfl, fun _ => rfl⟩

/-- Claim C5, counterexample: when the bot itself is the chat owner,
`prep_edit` accepts a sender who is an administrator with
`can_be_edited = false` (with no promotion call), refuting the claim that
such a sender is always rejected. -/
theorem c5_owner_accepts_uneditable_admin :
    prep_edit (ChatMemberKind.Owner false)
        (ChatMemberKind.Administrator false false false false) true true =
      ⟨0, false, Except.ok ()⟩ := by
  decide

/-- Claim C5, amended: on a Member sender `prep_edit` issues one promotion
call exactly when the bot can promote (and waits only when the promotion
and the acknowledgment succeed); on an Administrator sender with
`can_be_edited = false` it never issues a promotion call and accepts
exactly when the bot is the chat owner; Restricted, Left and Banned
senders are always rejected without a promotion call. -/
theorem c5_prep_edit_behaviour (me : ChatMemberKind) (p i a po ro : Bool) :
    ((prep_edit me ChatMemberKind.Member po ro).promote_calls =
      if me.can_promote_members && me.can_invite_users then 1 else 0) ∧
    ((prep_edit me ChatMemberKind.Member po ro).waited =
      (me.can_promote_members && me.can_invite_users && po && ro)) ∧
    ((prep_edit me ChatMemberKind.Member po ro).result = Except.ok () ↔
      (me.can_promote_members && me.can_invite_users && po && ro) = true) ∧
    ((prep_edit me (ChatMemberKind.Administrator false p i a) po ro).promote_calls
      = 0) ∧
    ((prep_edit me (ChatMemberKind.Administrator false p i a) po ro).result =
        Except.ok () ↔ me.is_owner = true) ∧
    ((prep_edit me (ChatMemberKind.Restricted a) po ro).promote_calls = 0 ∧
      (prep_edit me (ChatMemberKind.Restricted a) po ro).result ≠ Except.ok ()) ∧
    ((prep_edit me ChatMemberKind.Left po ro).promote_calls = 0 ∧
      (prep_edit me ChatMemberKind.Left po ro).result ≠ Except.ok ()) ∧
    ((prep_edit me ChatMemberKind.Banned po ro).promote_calls = 0 ∧
      (prep_edit me ChatMemberKind.Banned po ro).result ≠ Except.ok ()) := by
  cases me with
  | Owner b => cases b <;> cases p <;> cases i <;> cases a <;> cases po <;>
      cases ro <;> decide
  | Administrator e2 p2 i2 a2 => cases e2 <;> cases p2 <;> cases i2 <;>
      cases a2 <;> cases p <;> cases i <;> cases a <;> cases po <;>
      cases ro <;> decide
  | Member => cases p <;> cases i <;> cases a <;> cases po <;> cases ro <;> decide
  | Restricted iv => cases iv <;> cases p <;> cases i <;> cases a <;>
      cases po <;> cases ro <;> decide
  | Left => cases p <;> cases i <;> cases a <;> cases po <;> cases ro <;> decide
  | Banned => cases p <;> cases i <;> cases a <;> cases po <;> cases ro <;> decide

/-- Claim C6: when the requested title is already held by someone else in
the chat, `set_title` rejects with the conflict error, leaves the store
exactly as it was, and issues no platform mutation call. -/
theorem c6_conflict_leaves_store_unchanged (db : Db) (c : Int) (u : Nat)
    (t : String) (api_ok : Bool) (r : TitleRecord)
    (hr : TitleRecord.get_with_title db c t = some r) (_hne : r.user_id ≠ u) :
    (set_title db c u t api_ok).db = db ∧
    (set_title db c u t api_ok).api_calls = 0 ∧
    (set_title db c u t api_ok).result = Except.error "Title already in use" := by
  rw [set_title_in_use hr]
  exact ⟨rfl, rfl, rfl⟩

/-- Claim C6, witness: user 6 attempting the title of user 5 leaves the
store unchanged. -/
theorem c6_witness :
    TitleRecord.get_with_title ((TitleRecord.mk "Chief" 1 5).insert_into [])
      1 "Chief" = some (TitleRecord.mk "Chief" 1 5) ∧
    (TitleRecord.mk "Chief" 1 5).user_id ≠ 6 ∧
    (set_title ((TitleRecord.mk "Chief" 1 5).insert_into []) 1 6 "Chief"
      true).db = (TitleRecord.mk "Chief" 1 5).insert_into [] :=
  ⟨by decide, by decide,
    (c6_conflict_leaves_store_unchanged
      ((TitleRecord.mk "Chief" 1 5).insert_into []) 1 6 "Chief" true
      (TitleRecord.mk "Chief" 1 5) (by decide) (by decide)).1⟩

/-- Claim C7: starting from the empty store, every sequence of TitleStore
operations (including ones returning errors) maintains that at most one
record exists per `(chat, user)` and at most one per `(chat, title)`. -/
theorem c7_store_invariants (ops : List StoreOp) (c : Int) (u1 u2 : Nat)
    (r1 r2 : TitleRecord) :
    (TitleRecord.get_with_id (runOps ops) c u1 = some r1 →
      TitleRecord.get_with_id (runOps ops) c u1 = some r2 → r1 = r2) ∧
    (TitleRecord.get_with_id (runOps ops) c u1 = some r1 →
      TitleRecord.get_with_id (runOps ops) c u2 = some r2 →
      r1.title = r2.title → u1 = u2) := by
  constructor
  · intro h1 h2
    rw [h1] at h2
    exact Option.some.inj h2
  · intro h1 h2 ht
    have hC := coherent_runOps ops
    obtain ⟨hv1, _, _⟩ := get_with_id_some h1
    obtain ⟨hv2, _, _⟩ := get_with_id_some h2
    have hr1 := hC.fwd_rev _ _ _ hv1
    have hr2 := hC.fwd_rev _ _ _ hv2
    rw [ht] at hr1
    rw [hr1] at hr2
    simpa using hr2

/-- Claim C7, witness: a store reached by one successful insertion has one
record for `(1, 5)` and title uniqueness yields `5 = 5`. -/
theorem c7_witness :
    TitleRecord.get_with_id (runOps [StoreOp.set_op 1 5 "A" true]) 1 5 =
      some (TitleRecord.mk "A" 1 5) ∧ (5 : Nat) = 5 :=
  ⟨by decide, (c7_store_invariants [StoreOp.set_op 1 5 "A" true] 1 5 5
      (TitleRecord.mk "A" 1 5) (TitleRecord.mk "A" 1 5)).2
    (by decide) (by decide) rfl⟩

/-- Claim C8: immediately after `set_title` succeeds, the forward lookup
returns the record with the new title and the reverse lookup returns the
record with the requesting user. -/
theorem c8_insert_then_lookup (db : Db) (c : Int) (u : Nat) (t : String)
    (api_ok : Bool) (h : (set_title db c u t api_ok).result = Except.ok ()) :
    TitleRecord.get_with_id (set_title db c u t api_ok).db c u =
      some (TitleRecord.mk t c u) ∧
    TitleRecord.get_with_title (set_title db c u t api_ok).db c t =
      some (TitleRecord.mk t c u) := by
  cases hg : TitleRecord.get_with_title db c t with
  | some r =>
    rw [set_title_in_use hg] at h
    simp at h
  | none =>
    cases api_ok with
    | false =>
      rw [set_title_api_fail hg] at h
      simp at h
    | true =>
      rw [set_title_ok hg]
      constructor
      · show TitleRecord.get_with_id
          ((TitleRecord.mk t c u).insert_into (remove_title_with_id db c u)) c u =
          some (TitleRecord.mk t c u)
        unfold TitleRecord.get_with_id
        rw [dbGet_insert_mk, if_neg (TitleRecord.chat_key_ne_title_key c c u t),
          if_pos rfl]
      · show TitleRecord.get_with_title
          ((TitleRecord.mk t c u).insert_into (remove_title_with_id db c u)) c t =
          some (TitleRecord.mk t c u)
        unfold TitleRecord.get_with_title
        rw [dbGet_insert_mk, if_pos rfl]

/-- Claim C8, witness: inserting title `T` for user 5 in chat 1 into the
empty store makes both lookups return that record. -/
theorem c8_witness :
    (set_title ([] : Db) 1 5 "T" true).result = Except.ok () ∧
    TitleRecord.get_with_id (set_title ([] : Db) 1 5 "T" true).db 1 5 =
      some (TitleRecord.mk "T" 1 5) :=
  ⟨by decide, (c8_insert_then_lookup [] 1 5 "T" true (by decide)).1⟩

/-- Claim C9, counterexample: an owner bot is accepted by
`assert_bot_promotable` (the privilege helpers of the platform library
treat the owner as holding every admin privilege), refuting the claim
that every non-Administrator bot role is rejected. -/
theorem c9_owner_bot_accepted :
    assert_bot_promotable (ChatMemberKind.Owner false) = Except.ok () := by
  decide

/-- Claim C9, amended: `assert_bot_promotable` accepts exactly when the
bot is the chat owner, or an administrator with both
`can_promote_members` and `can_invite_users`; Member, Restricted, Left
and Banned bots are rejected. -/
theorem c9_bot_promotable_iff (k : ChatMemberKind) :
    assert_bot_promotable k = Except.ok () ↔
      (k.is_owner ||
        (k.is_administrator && k.can_promote_members && k.can_invite_users)) =
        true := by
  cases k with
  | Owner b =>
    simp [assert_bot_promotable, ChatMemberKind.can_promote_members,
      ChatMemberKind.can_invite_users, ChatMemberKind.is_owner,
      ChatMemberKind.is_administrator]
  | Administrator e p i a =>
    cases p <;> cases i <;>
      simp [assert_bot_promotable, ChatMemberKind.can_promote_members,
        ChatMemberKind.can_invite_users, ChatMemberKind.is_owner,
        ChatMemberKind.is_administrator]
  | Member =>
    simp [assert_bot_promotable, ChatMemberKind.can_promote_members,
      ChatMemberKind.can_invite_users, ChatMemberKind.is_owner,
      ChatMemberKind.is_administrator]
  | Restricted iv =>
    simp [assert_bot_promotable, ChatMemberKind.can_promote_members,
      ChatMemberKind.can_invite_users, ChatMemberKind.is_owner,
      ChatMemberKind.is_administrator]
  | Left =>
    simp [assert_bot_promotable, ChatMemberKind.can_promote_members,
      ChatMemberKind.can_invite_users, ChatMemberKind.is_owner,
      ChatMemberKind.is_administrator]
  | Banned =>
    simp [assert_bot_promotable, ChatMemberKind.can_promote_members,
      ChatMemberKind.can_invite_users, ChatMemberKind.is_owner,
      ChatMemberKind.is_administrator]

/-- Claim C10: when the in-use check passed but the platform custom-title
call fails, `set_title` returns an error, the store has already lost the
prior record of the requester, no new record is written, and the
requester ends with no record at all. -/
theorem c10_api_failure_loses_record (db : Db) (c : Int) (u : Nat) (t : String)
    (h : TitleRecord.get_with_title db c t = none) :
    (set_title db c u t false).result = Except.error "Failed to set title" ∧
    (set_title db c u t false).db = remove_title_with_id db c u ∧
    TitleRecord.get_with_id (set_title db c u t false).db c u = none := by
  rw [set_title_api_fail h]
  refine ⟨rfl, rfl, ?_⟩
  show TitleRecord.get_with_id (remove_title_with_id db c u) c u = none
  unfold remove_title_with_id
  cases hg : TitleRecord.get_with_id db c u with
  | none => exact hg
  | some r =>
    obtain ⟨hv, hc, hu⟩ := get_with_id_some hg
    unfold TitleRecord.get_with_id
    rw [dbGet_remove_from, if_pos (by rw [hc, hu])]

/-- Claim C10, witness: user 5 held title `Old`; after a failed platform
call for fresh title `New`, user 5 has no record. -/
theorem c10_witness :
    TitleRecord.get_with_title ((TitleRecord.mk "Old" 1 5).insert_into [])
      1 "New" = none ∧
    TitleRecord.get_with_id
      (set_title ((TitleRecord.mk "Old" 1 5).insert_into []) 1 5 "New"
        false).db 1 5 = none :=
  ⟨by decide,
    (c10_api_failure_loses_record ((TitleRecord.mk "Old" 1 5).insert_into [])
      1 5 "New" (by decide)).2.2⟩

end GoldenAxe
